import Mathlib

/-!
Verification of the DVD-screensaver animation core (`src/src/DVDScreensaver.jsx`).

The geometry of the animation tick (`animate`, lines 94-159) uses only
addition, multiplication by the constant speed, comparisons and clamping,
so it is embedded exactly over the rationals.  The angle diagnostic
(`normalize`, `dot`, `angleBetween`, lines 26-42) uses `Math.hypot` and
`Math.acos`, embedded over the reals with `Real.sqrt` and `Real.arccos`.
-/

namespace DVDScreensaver

/-- Constant `SPEED = 0.75` (line 7). -/
def SPEED : ℚ := 3 / 4

/-- Constant `LOGO_WIDTH = 200` (line 8). -/
def LOGO_WIDTH : ℚ := 200

/-- Constant `LOGO_ASPECT_RATIO = 744 / 300` (line 9). -/
def LOGO_ASPECT_RATIO : ℚ := 744 / 300

/-- Constant `LOGO_HEIGHT = LOGO_WIDTH / LOGO_ASPECT_RATIO` (line 10). -/
def LOGO_HEIGHT : ℚ := LOGO_WIDTH / LOGO_ASPECT_RATIO

/-- Constant `CORNER_THRESHOLD = 6` (line 13). -/
def CORNER_THRESHOLD : ℚ := 6

/-- A 2-d vector of exact coordinates, as the `{x, y}` records of the source. -/
structure Vec2 where
  x : ℚ
  y : ℚ
deriving DecidableEq, Repr

/-- The part of the per-frame state that one call of `animate` updates:
position (`posRef`), direction (`dirRef`) and whether this tick bounced
(which the source uses only to stamp `lastBounceTimeRef`). -/
structure TickResult where
  pos : Vec2
  vel : Vec2
  bounced : Bool
deriving DecidableEq, Repr

/-- Bound `maxX = containerSize.width - LOGO_WIDTH` (line 96). -/
def maxXOf (width : ℚ) : ℚ := width - LOGO_WIDTH

/-- Bound `maxY = containerSize.height - LOGO_HEIGHT` (line 97). -/
def maxYOf (height : ℚ) : ℚ := height - LOGO_HEIGHT

/-- One axis of the bounce resolution (lines 110-127): the tentatively
advanced coordinate `c` is clamped against `[0, mx]` and the direction
component `d` is negated when a wall is hit.  Returns the resolved
coordinate, the resolved direction component and the bounce flag. -/
def resolveAxis (c d mx : ℚ) : ℚ × ℚ × Bool :=
  if c ≤ 0 then (0, d * (-1), true)
  else if c ≥ mx then (mx, d * (-1), true)
  else (c, d, false)

/-- The movement part of one `animate` tick (lines 96-130): advance the
position by `velocity * SPEED`, then resolve each axis independently. -/
def animateStep (pos vel : Vec2) (mX mY : ℚ) : TickResult :=
  let x := pos.x + vel.x * SPEED
  let y := pos.y + vel.y * SPEED
  let rx := resolveAxis x vel.x mX
  let ry := resolveAxis y vel.y mY
  ⟨⟨rx.1, ry.1⟩, ⟨rx.2.1, ry.2.1⟩, rx.2.2 || ry.2.2⟩

/-- The four corners of the admissible position region (lines 137-142). -/
def corners (mX mY : ℚ) : List Vec2 :=
  [⟨0, 0⟩, ⟨mX, 0⟩, ⟨0, mY⟩, ⟨mX, mY⟩]

/-- The corner-proximity predicate `nearCorner` (lines 146-148). -/
def nearCorner (x y : ℚ) (c : Vec2) : Prop :=
  |x - c.x| ≤ CORNER_THRESHOLD ∧ |y - c.y| ≤ CORNER_THRESHOLD

instance (x y : ℚ) (c : Vec2) : Decidable (nearCorner x y c) :=
  inferInstanceAs (Decidable (_ ∧ _))

/-- The `origin` record passed to the particle-burst effect when a corner
fires (lines 153-156). -/
def burstOrigin (c : Vec2) (width height : ℚ) : Vec2 :=
  ⟨(c.x + LOGO_WIDTH / 2) / width, (c.y + LOGO_HEIGHT / 2) / height⟩

/-- The leading vertex of the logo (`sourceLogo`) and the targeted viewport
corner (`targetScreen`) chosen from the sign of the direction (lines
164-184). -/
def leadingAndTarget (dx dy x y width height : ℚ) : Vec2 × Vec2 :=
  if dx > 0 ∧ dy > 0 then (⟨x + LOGO_WIDTH, y + LOGO_HEIGHT⟩, ⟨width, height⟩)
  else if dx > 0 ∧ dy < 0 then (⟨x + LOGO_WIDTH, y⟩, ⟨width, 0⟩)
  else if dx < 0 ∧ dy > 0 then (⟨x, y + LOGO_HEIGHT⟩, ⟨0, height⟩)
  else (⟨x, y⟩, ⟨0, 0⟩)

/-- Each resolved axis lands in `[0, mx]` as long as `mx` is non-negative. -/
lemma resolveAxis_in_bounds (c d mx : ℚ) (h : 0 ≤ mx) :
    0 ≤ (resolveAxis c d mx).1 ∧ (resolveAxis c d mx).1 ≤ mx := by
  unfold resolveAxis
  split_ifs <;> refine ⟨?_, ?_⟩ <;> dsimp only <;> linarith

/-- Claim C1: For every tick with `maxX ≥ 0` and `maxY ≥ 0`, the position
produced after collision resolution satisfies `0 ≤ x ≤ maxX` and
`0 ≤ y ≤ maxY`, regardless of the incoming position and velocity. -/
theorem position_in_bounds (pos vel : Vec2) (mX mY : ℚ)
    (hX : 0 ≤ mX) (hY : 0 ≤ mY) :
    0 ≤ (animateStep pos vel mX mY).pos.x ∧
      (animateStep pos vel mX mY).pos.x ≤ mX ∧
      0 ≤ (animateStep pos vel mX mY).pos.y ∧
      (animateStep pos vel mX mY).pos.y ≤ mY := by
  have hx := resolveAxis_in_bounds (pos.x + vel.x * SPEED) vel.x mX hX
  have hy := resolveAxis_in_bounds (pos.y + vel.y * SPEED) vel.y mY hY
  exact ⟨hx.1, hx.2, hy.1, hy.2⟩

/-- Claim C1 witness: The bounds invariant instantiated at a tick that
overshoots the right wall from position `(599.9, 100)`. -/
theorem position_in_bounds_witness :
    0 ≤ (animateStep ⟨5999/10, 100⟩ ⟨1, 1⟩ 600 400).pos.x ∧
      (animateStep ⟨5999/10, 100⟩ ⟨1, 1⟩ 600 400).pos.x ≤ 600 ∧
      0 ≤ (animateStep ⟨5999/10, 100⟩ ⟨1, 1⟩ 600 400).pos.y ∧
      (animateStep ⟨5999/10, 100⟩ ⟨1, 1⟩ 600 400).pos.y ≤ 400 :=
  position_in_bounds ⟨5999/10, 100⟩ ⟨1, 1⟩ 600 400 (by norm_num) (by norm_num)

/-- A resolved axis's direction component differs from the incoming one
exactly when the tentative coordinate hits a wall, and then it is the
negation of the incoming one (`d ≠ 0` holds throughout the program, whose
direction components are always `1` or `-1`). -/
lemma resolveAxis_flip (c d mx : ℚ) (hd : d ≠ 0) :
    ((resolveAxis c d mx).2.1 ≠ d ↔ (c ≤ 0 ∨ c ≥ mx)) ∧
      ((c ≤ 0 ∨ c ≥ mx) → (resolveAxis c d mx).2.1 = -d) := by
  have hda : d * (-1) ≠ d := fun hEq => hd (by linarith)
  unfold resolveAxis
  split_ifs with h1 h2
  · exact ⟨⟨fun _ => Or.inl h1, fun _ => hda⟩, fun _ => by ring⟩
  · exact ⟨⟨fun _ => Or.inr h2, fun _ => hda⟩, fun _ => by ring⟩
  · refine ⟨⟨fun hne => (hne rfl).elim, ?_⟩, ?_⟩ <;>
      · rintro (hw | hw)
        · exact absurd hw h1
        · exact absurd hw h2

/-- Claim C2: In every tick with nonzero direction components, each axis's
direction component changes sign iff that axis's tentatively advanced
coordinate reaches `0` or its max; when that happens the component becomes
the negation of the incoming one, the two axes being resolved
independently in the same tick (so a simultaneous corner hit inverts
both). -/
theorem velocity_sign_change_iff (pos vel : Vec2) (mX mY : ℚ)
    (hdx : vel.x ≠ 0) (hdy : vel.y ≠ 0) :
    ((animateStep pos vel mX mY).vel.x ≠ vel.x ↔
        (pos.x + vel.x * SPEED ≤ 0 ∨ pos.x + vel.x * SPEED ≥ mX)) ∧
      ((animateStep pos vel mX mY).vel.y ≠ vel.y ↔
        (pos.y + vel.y * SPEED ≤ 0 ∨ pos.y + vel.y * SPEED ≥ mY)) ∧
      ((pos.x + vel.x * SPEED ≤ 0 ∨ pos.x + vel.x * SPEED ≥ mX) →
        (animateStep pos vel mX mY).vel.x = -vel.x) ∧
      ((pos.y + vel.y * SPEED ≤ 0 ∨ pos.y + vel.y * SPEED ≥ mY) →
        (animateStep pos vel mX mY).vel.y = -vel.y) := by
  have hx := resolveAxis_flip (pos.x + vel.x * SPEED) vel.x mX hdx
  have hy := resolveAxis_flip (pos.y + vel.y * SPEED) vel.y mY hdy
  exact ⟨hx.1, hy.1, hx.2, hy.2⟩

/-- Claim C2 witness: A simultaneous corner hit: from `(0, 0)` moving toward
the top-left, both direction components are inverted in the same tick. -/
theorem velocity_sign_change_iff_witness :
    (animateStep ⟨0, 0⟩ ⟨-1, -1⟩ 600 400).vel.x = -(-1) ∧
      (animateStep ⟨0, 0⟩ ⟨-1, -1⟩ 600 400).vel.y = -(-1) := by
  have h := velocity_sign_change_iff ⟨0, 0⟩ ⟨-1, -1⟩ 600 400
    (by norm_num) (by norm_num)
  exact ⟨h.2.2.1 (Or.inl (by norm_num [SPEED])),
    h.2.2.2 (Or.inl (by norm_num [SPEED]))⟩

/-- Claim C3: With `maxX > 12` and `maxY > 12`, a position exactly at one of
the four bounds corners is "near" (threshold 6) that corner and no other
corner. -/
theorem corner_detector_exact (mX mY : ℚ) (hX : 12 < mX) (hY : 12 < mY) :
    ∀ c ∈ corners mX mY, nearCorner c.x c.y c ∧
      ∀ c' ∈ corners mX mY, c' ≠ c → ¬ nearCorner c.x c.y c' := by
  intro c hc
  simp only [corners, List.mem_cons, List.not_mem_nil, or_false] at hc
  rcases hc with rfl | rfl | rfl | rfl <;>
    refine ⟨by simp [nearCorner, CORNER_THRESHOLD], ?_⟩ <;>
    · intro c' hc'
      simp only [corners, List.mem_cons, List.not_mem_nil, or_false] at hc'
      rcases hc' with rfl | rfl | rfl | rfl <;> intro hne hnear <;>
        simp only [nearCorner, CORNER_THRESHOLD] at hnear <;>
        obtain ⟨hn1, hn2⟩ := hnear <;>
        rcases abs_le.mp hn1 with ⟨h1a, h1b⟩ <;>
        rcases abs_le.mp hn2 with ⟨h2a, h2b⟩ <;>
        first
          | exact hne rfl
          | linarith

/-- Claim C3 witness: At `(0, 0)` with `maxX = 600`, `maxY = 400`, the
detector reports the top-left corner and not the top-right one. -/
theorem corner_detector_exact_witness :
    nearCorner 0 0 ⟨0, 0⟩ ∧ ¬ nearCorner 0 0 ⟨600, 0⟩ := by
  have h := corner_detector_exact 600 400 (by norm_num) (by norm_num)
    ⟨0, 0⟩ (by simp [corners])
  exact ⟨h.1, h.2 ⟨600, 0⟩ (by simp [corners]) (by decide)⟩

/-- A burst-origin coordinate `(cc + half) / w` lies in `[0, 1]` when the
numerator parts are non-negative and sum to at most `w`. -/
lemma originCoord_bounds (cc half w : ℚ) (h0 : 0 ≤ cc) (hhalf : 0 < half)
    (hup : cc + half ≤ w) :
    0 ≤ (cc + half) / w ∧ (cc + half) / w ≤ 1 := by
  have hw0 : 0 < w := by linarith
  exact ⟨div_nonneg (by linarith) hw0.le, by rw [div_le_one hw0]; linarith⟩

/-- Claim C4: For every corner `c` of the bounds, the particle-burst origin
is `((c.x + logoWidth/2) / width, (c.y + logoHeight/2) / height)`, and for
every viewport at least as large as the logo both fractions lie in
`[0, 1]`. -/
theorem burst_origin_fraction (width height : ℚ)
    (hw : LOGO_WIDTH ≤ width) (hh : LOGO_HEIGHT ≤ height) :
    ∀ c ∈ corners (maxXOf width) (maxYOf height),
      burstOrigin c width height =
          ⟨(c.x + LOGO_WIDTH / 2) / width, (c.y + LOGO_HEIGHT / 2) / height⟩ ∧
        0 ≤ (burstOrigin c width height).x ∧
        (burstOrigin c width height).x ≤ 1 ∧
        0 ≤ (burstOrigin c width height).y ∧
        (burstOrigin c width height).y ≤ 1 := by
  have hw' : (200 : ℚ) ≤ width := by
    simpa [LOGO_WIDTH] using hw
  have hh' : (2500 / 31 : ℚ) ≤ height := by
    rw [LOGO_HEIGHT, LOGO_WIDTH, LOGO_ASPECT_RATIO] at hh
    linarith
  intro c hc
  simp only [corners, maxXOf, maxYOf, List.mem_cons, List.not_mem_nil,
    or_false] at hc
  have hx0 := originCoord_bounds 0 (LOGO_WIDTH / 2) width
    le_rfl (by norm_num [LOGO_WIDTH]) (by rw [LOGO_WIDTH]; linarith)
  have hxM := originCoord_bounds (width - LOGO_WIDTH) (LOGO_WIDTH / 2) width
    (by rw [LOGO_WIDTH]; linarith) (by norm_num [LOGO_WIDTH])
    (by rw [LOGO_WIDTH]; linarith)
  have hy0 := originCoord_bounds 0 (LOGO_HEIGHT / 2) height
    le_rfl (by norm_num [LOGO_HEIGHT, LOGO_WIDTH, LOGO_ASPECT_RATIO])
    (by rw [LOGO_HEIGHT, LOGO_WIDTH, LOGO_ASPECT_RATIO]; linarith)
  have hyM := originCoord_bounds (height - LOGO_HEIGHT) (LOGO_HEIGHT / 2)
    height
    (by rw [LOGO_HEIGHT, LOGO_WIDTH, LOGO_ASPECT_RATIO]; linarith)
    (by norm_num [LOGO_HEIGHT, LOGO_WIDTH, LOGO_ASPECT_RATIO])
    (by rw [LOGO_HEIGHT, LOGO_WIDTH, LOGO_ASPECT_RATIO]; linarith)
  rcases hc with rfl | rfl | rfl | rfl
  · exact ⟨rfl, hx0.1, hx0.2, hy0.1, hy0.2⟩
  · exact ⟨rfl, hxM.1, hxM.2, hy0.1, hy0.2⟩
  · exact ⟨rfl, hx0.1, hx0.2, hyM.1, hyM.2⟩
  · exact ⟨rfl, hxM.1, hxM.2, hyM.1, hyM.2⟩

/-- Claim C4 witness: In an `800 × 600` viewport the origin fired for the
top-left corner `(0, 0)` has both fractions in `[0, 1]`. -/
theorem burst_origin_fraction_witness :
    0 ≤ (burstOrigin ⟨0, 0⟩ 800 600).x ∧ (burstOrigin ⟨0, 0⟩ 800 600).x ≤ 1 ∧
      0 ≤ (burstOrigin ⟨0, 0⟩ 800 600).y ∧
      (burstOrigin ⟨0, 0⟩ 800 600).y ≤ 1 := by
  have h := burst_origin_fraction 800 600
    (by norm_num [LOGO_WIDTH])
    (by norm_num [LOGO_HEIGHT, LOGO_WIDTH, LOGO_ASPECT_RATIO])
    ⟨0, 0⟩ (by simp [corners])
  exact h.2

/-- Claim C6: The leading-vertex/target-corner table of the angle diagnostic:
`(+,+)` picks the bottom-right vertex and viewport corner, `(+,−)` the
top-right ones, `(−,+)` the bottom-left ones, and `(−,−)` as well as every
combination with a zero component picks the top-left ones. -/
theorem leading_vertex_table (dx dy x y w h : ℚ) :
    (dx > 0 → dy > 0 → leadingAndTarget dx dy x y w h =
        (⟨x + LOGO_WIDTH, y + LOGO_HEIGHT⟩, ⟨w, h⟩)) ∧
      (dx > 0 → dy < 0 → leadingAndTarget dx dy x y w h =
        (⟨x + LOGO_WIDTH, y⟩, ⟨w, 0⟩)) ∧
      (dx < 0 → dy > 0 → leadingAndTarget dx dy x y w h =
        (⟨x, y + LOGO_HEIGHT⟩, ⟨0, h⟩)) ∧
      (dx < 0 → dy < 0 → leadingAndTarget dx dy x y w h = (⟨x, y⟩, ⟨0, 0⟩)) ∧
      (dx = 0 → leadingAndTarget dx dy x y w h = (⟨x, y⟩, ⟨0, 0⟩)) ∧
      (dy = 0 → leadingAndTarget dx dy x y w h = (⟨x, y⟩, ⟨0, 0⟩)) := by
  unfold leadingAndTarget
  refine ⟨fun h1 h2 => ?_, fun h1 h2 => ?_, fun h1 h2 => ?_, fun h1 h2 => ?_,
    fun h1 => ?_, fun h1 => ?_⟩
  · rw [if_pos ⟨h1, h2⟩]
  · rw [if_neg (fun hcon : dx > 0 ∧ dy > 0 => absurd hcon.2 (by linarith)),
      if_pos ⟨h1, h2⟩]
  · rw [if_neg (fun hcon : dx > 0 ∧ dy > 0 => absurd hcon.1 (by linarith)),
      if_neg (fun hcon : dx > 0 ∧ dy < 0 => absurd hcon.1 (by linarith)),
      if_pos ⟨h1, h2⟩]
  · rw [if_neg (fun hcon : dx > 0 ∧ dy > 0 => absurd hcon.1 (by linarith)),
      if_neg (fun hcon : dx > 0 ∧ dy < 0 => absurd hcon.1 (by linarith)),
      if_neg (fun hcon : dx < 0 ∧ dy > 0 => absurd hcon.2 (by linarith))]
  · rw [if_neg (fun hcon : dx > 0 ∧ dy > 0 => absurd hcon.1 (by linarith)),
      if_neg (fun hcon : dx > 0 ∧ dy < 0 => absurd hcon.1 (by linarith)),
      if_neg (fun hcon : dx < 0 ∧ dy > 0 => absurd hcon.1 (by linarith))]
  · rw [if_neg (fun hcon : dx > 0 ∧ dy > 0 => absurd hcon.2 (by linarith)),
      if_neg (fun hcon : dx > 0 ∧ dy < 0 => absurd hcon.2 (by linarith)),
      if_neg (fun hcon : dx < 0 ∧ dy > 0 => absurd hcon.2 (by linarith))]

/-- Claim C6 witness: Travelling down-right from `(10, 20)` in an `800 × 600`
viewport, the diagnostic picks the bottom-right logo vertex and the
bottom-right viewport corner. -/
theorem leading_vertex_table_witness :
    leadingAndTarget 1 1 10 20 800 600 =
      (⟨10 + LOGO_WIDTH, 20 + LOGO_HEIGHT⟩, ⟨800, 600⟩) :=
  (leading_vertex_table 1 1 10 20 800 600).1 (by norm_num) (by norm_num)

/-- Claim C5: One tick from `(598, 2)` with direction `(1, -1)` and bounds
`maxX = 600`, `maxY = 400` yields position `(598.75, 1.25)`, no bounce,
and both direction components unchanged. -/
theorem scenario_598_2 :
    animateStep ⟨598, 2⟩ ⟨1, -1⟩ 600 400 =
      ⟨⟨2395/4, 5/4⟩, ⟨1, -1⟩, false⟩ := by
  norm_num [animateStep, resolveAxis, SPEED, TickResult.mk.injEq, Vec2.mk.injEq]

/-- Function `clamp(v, min, max) = Math.max(min, Math.min(max, v))` over the reals
(lines 18-20); the tick itself never calls it, only `angleBetween` does. -/
def clampR (v mn mx : ℝ) : ℝ := max mn (min mx v)

/-- Function `length(x, y) = Math.hypot(x, y)` (lines 22-24). -/
noncomputable def length (x y : ℝ) : ℝ := Real.sqrt (x ^ 2 + y ^ 2)

/-- Function `normalize` (lines 26-30): the zero vector when the length vanishes,
the unit vector otherwise. -/
noncomputable def normalize (x y : ℝ) : ℝ × ℝ :=
  if length x y = 0 then (0, 0) else (x / length x y, y / length x y)

/-- Function `dot` (lines 32-34). -/
def dot (ax ay bx b_y : ℝ) : ℝ := ax * bx + ay * b_y

/-- Function `angleBetween` (lines 36-42): inverse cosine of the clamped dot product
of the normalized inputs, in radians. -/
noncomputable def angleBetween (ax ay bx b_y : ℝ) : ℝ :=
  Real.arccos (clampR (dot (normalize ax ay).1 (normalize ax ay).2
    (normalize bx b_y).1 (normalize bx b_y).2) (-1) 1)

/-- Claim C8: The angle computation is total: a zero-length vector normalizes
to the zero vector instead of dividing by zero, and the value handed to the
inverse cosine is clamped into `[-1, 1]`, so `Real.arccos` is never applied
outside its domain. -/
theorem angle_domain_safe (ax ay bx b_y : ℝ) :
    (length ax ay = 0 → normalize ax ay = (0, 0)) ∧
      -1 ≤ clampR (dot (normalize ax ay).1 (normalize ax ay).2
        (normalize bx b_y).1 (normalize bx b_y).2) (-1) 1 ∧
      clampR (dot (normalize ax ay).1 (normalize ax ay).2
        (normalize bx b_y).1 (normalize bx b_y).2) (-1) 1 ≤ 1 ∧
      angleBetween ax ay bx b_y =
        Real.arccos (clampR (dot (normalize ax ay).1 (normalize ax ay).2
          (normalize bx b_y).1 (normalize bx b_y).2) (-1) 1) := by
  refine ⟨fun h => by simp [normalize, h], le_max_left _ _, ?_, rfl⟩
  exact max_le (by norm_num) (min_le_left _ _)

/-- Claim C8 witness: The zero vector and a diagonal vector: the guard fires
and the clamped dot product stays inside `[-1, 1]`. -/
theorem angle_domain_safe_witness :
    normalize 0 0 = (0, 0) ∧
      -1 ≤ clampR (dot (normalize 0 0).1 (normalize 0 0).2
        (normalize 1 1).1 (normalize 1 1).2) (-1) 1 ∧
      clampR (dot (normalize 0 0).1 (normalize 0 0).2
        (normalize 1 1).1 (normalize 1 1).2) (-1) 1 ≤ 1 := by
  have h := angle_domain_safe 0 0 1 1
  exact ⟨h.1 (by simp [length]), h.2.1, h.2.2.1⟩

/-- Claim C9: The angle computation is commutative in its two vector
arguments and its value always lies in `[0, π]`. -/
theorem angle_comm_and_range (ax ay bx b_y : ℝ) :
    angleBetween ax ay bx b_y = angleBetween bx b_y ax ay ∧
      0 ≤ angleBetween ax ay bx b_y ∧
      angleBetween ax ay bx b_y ≤ Real.pi := by
  refine ⟨?_, ?_, ?_⟩
  · have hdot : dot (normalize ax ay).1 (normalize ax ay).2
        (normalize bx b_y).1 (normalize bx b_y).2 =
        dot (normalize bx b_y).1 (normalize bx b_y).2
          (normalize ax ay).1 (normalize ax ay).2 := by
      simp only [dot]; ring
    simp only [angleBetween, hdot]
  · unfold angleBetween
    exact Real.arccos_nonneg _
  · unfold angleBetween
    exact Real.arccos_le_pi _

/-- Claim C7: The angle diagnostic on velocity `(1,1)` against target vector
`(1,1)` reports 0 degrees, and on velocity `(1,0)` against `(0,1)` reports
90 degrees (degrees as computed on line 191, `a * 180 / π`). -/
theorem angle_examples :
    angleBetween 1 1 1 1 * 180 / Real.pi = 0 ∧
      angleBetween 1 0 0 1 * 180 / Real.pi = 90 := by
  have h2 : Real.sqrt 2 * Real.sqrt 2 = 2 := Real.mul_self_sqrt (by norm_num)
  have h2pos : 0 < Real.sqrt 2 := Real.sqrt_pos.mpr (by norm_num)
  have hL11 : length 1 1 = Real.sqrt 2 := by norm_num [length]
  have hL10 : length 1 0 = 1 := by rw [length]; norm_num
  have hL01 : length 0 1 = 1 := by rw [length]; norm_num
  have hn11 : normalize 1 1 = (1 / Real.sqrt 2, 1 / Real.sqrt 2) := by
    rw [normalize, if_neg (by rw [hL11]; exact ne_of_gt h2pos), hL11]
  have hn10 : normalize 1 0 = (1, 0) := by
    rw [normalize, if_neg (by rw [hL10]; norm_num), hL10]
    norm_num
  have hn01 : normalize 0 1 = (0, 1) := by
    rw [normalize, if_neg (by rw [hL01]; norm_num), hL01]
    norm_num
  constructor
  · have hsum : 1 / Real.sqrt 2 * (1 / Real.sqrt 2) +
        1 / Real.sqrt 2 * (1 / Real.sqrt 2) = 1 := by
      field_simp
    simp only [angleBetween, hn11, dot, hsum]
    norm_num [clampR, Real.arccos_one]
  · simp only [angleBetween, hn10, hn01, dot]
    norm_num [clampR, Real.arccos_zero]
    field_simp
    ring

/-- Claim C10: Against the zero vector (in either argument position) the
angle computation returns exactly `π/2` radians, i.e. 90 degrees: the zero
vector normalizes to `(0, 0)`, so the clamped dot product is `0`. -/
theorem angle_zero_vector (bx b_y : ℝ) :
    angleBetween 0 0 bx b_y = Real.pi / 2 ∧
      angleBetween bx b_y 0 0 = Real.pi / 2 ∧
      angleBetween 0 0 bx b_y * 180 / Real.pi = 90 := by
  have hn0 : normalize 0 0 = (0, 0) := by
    simp [normalize, length]
  have h1 : angleBetween 0 0 bx b_y = Real.pi / 2 := by
    simp only [angleBetween, hn0, dot]
    norm_num [clampR, Real.arccos_zero]
  have h2 : angleBetween bx b_y 0 0 = Real.pi / 2 := by
    simp only [angleBetween, hn0, dot]
    norm_num [clampR, Real.arccos_zero]
  refine ⟨h1, h2, ?_⟩
  rw [h1]
  field_simp
  ring

end DVDScreensaver
